import Mathlib

/-!
Verification development for the PPTX presentation composer
(`src/backend/utils/pptx_generator/pptx_service.py`, class `PPTXGeneratorService`).

Shallow embedding conventions:
* Lengths given to python-pptx as `Inches(x)` are modelled as integers in
  thousandths of an inch (so `Inches(0.5)` is `500`, `Inches(-0.6)` is `-600`,
  `Inches(5.625)` is `5625`).  Font sizes `Pt(n)` are modelled as the natural
  number `n`.
* Python string truthiness (`if s:`) is modelled as `s ≠ ""`; list truthiness
  as `l ≠ []`.
* `os.path.exists` is modelled by an explicit predicate `ex : String → Bool`
  passed to each function that consults the filesystem.
* A text frame's initial empty paragraph (the one python-pptx keeps after
  `clear()`) is not modelled: paragraph lists below hold exactly the
  paragraphs the service writes content into (`paragraphs[0]` reuse included).
* Constant cosmetic attributes the code always sets the same way
  (font name "Arial", RGB colour, centre alignment) are omitted from the
  paragraph model; text, size, boldness, indentation level and spacing are kept.
-/

/-- A paragraph as written by the service: text plus the typographic
attributes the code sets (`p.text`, `p.font.size`, `p.font.bold`,
`p.level`, `p.space_before`, `p.space_after`). -/
structure Para where
  text : String
  size : Nat
  bold : Bool
  level : Nat
  spaceBefore : Option Nat
  spaceAfter : Option Nat
  deriving Repr, DecidableEq

/-- A shape on a slide: textbox (`add_textbox`), picture (`add_picture`,
width or height may be omitted to preserve aspect ratio) or media
(`add_movie`).  Coordinates are thousandths of an inch. -/
inductive Shape where
  | textbox (left top width height : Int) (paras : List Para)
  | picture (left top : Int) (width height : Option Int)
  | media (left top width height : Int)
  deriving Repr, DecidableEq

/-- A structured bullet from the AI: `bullet.get('emoji','')`,
`bullet.get('point','')`, `bullet.get('description','')` — an absent key is
the empty string. -/
structure Bullet where
  emoji : String
  point : String
  description : String
  deriving Repr, DecidableEq

/-- One input slide record (`slide_data` dictionary).  `none` models an
absent key. -/
structure SlideData where
  slideType : Option String
  slideIndex : Option Int
  title : Option String
  content : List String
  bullets : Option (List Bullet)
  imagePath : Option String
  audioPath : Option String
  speakerNote : Option String
  deriving Repr, DecidableEq

/-! ## Substring search (Python `in` on lowercased text) -/

/-- Whether the character list `pat` occurs contiguously inside `l`
(Python `pat in l` on strings, as lists of characters). -/
def containsSubList (l pat : List Char) : Bool :=
  match l with
  | [] => pat.isEmpty
  | _ :: rest => pat.isPrefixOf l || containsSubList rest pat

/-- Whether the string `pat` occurs inside `s`. -/
def containsSub (s pat : String) : Bool :=
  containsSubList s.toList pat.toList

/-- Python `str.lower()` restricted to its ASCII action (the only
characters the code's lowercase comparisons involve), written over the
character list so that it evaluates inside the kernel. -/
def strToLower (s : String) : String :=
  String.mk (s.toList.map Char.toLower)

/-! ## Placeholder Sanitizer (`_clear_placeholders`, lines 161-201)

The Python code inspects each shape inside a `try`: an exception while
reading `is_placeholder` / `placeholder_format` / the text frame means the
shape's attributes are unobservable and the shape is skipped.  We model the
outcome of inspecting a shape: either the three observable facts, or the
inspection fault. -/

/-- Result of inspecting one shape: the structural placeholder flag
(`is_placeholder`), the placeholder-format flag
(`placeholder_format is not None`), and the text-frame text (`none` when the
shape has no `text_frame` attribute) — or an inspection fault (`fault`),
modelling the `except Exception: pass`. -/
inductive ShapeInsp where
  | ok (isPh : Bool) (phFmt : Bool) (text : Option String)
  | fault
  deriving Repr, DecidableEq

/-- Whether the lowercased text triggers the editor-prompt heuristic:
`'click to' in text or 'master' in text` (text lowercased first). -/
def promptText (t : Option String) : Bool :=
  match t with
  | none => false
  | some s =>
      containsSub (strToLower s) "click to" || containsSub (strToLower s) "master"

/-- Whether `_clear_placeholders` marks the shape for removal: inspection
succeeded and one of the three checks fired. -/
def shouldRemove (sh : ShapeInsp) : Bool :=
  match sh with
  | .ok isPh phFmt text => isPh || phFmt || promptText text
  | .fault => false

/-- `_clear_placeholders`: collect every shape marked for removal, then
detach each from the shape tree.  On the list model the two passes amount
to filtering the marked shapes out. -/
def clearPlaceholders (shapes : List ShapeInsp) : List ShapeInsp :=
  shapes.filter (fun sh => !shouldRemove sh)

/-! ## Layout Resolver (`_find_blank_layout`, lines 130-159) -/

/-- A layout in the catalog: its position-independent identity and its
inherited placeholder count (`len(list(layout.placeholders))`). -/
structure Layout where
  id : Nat
  ph : Nat
  deriving Repr, DecidableEq

/-- The final scan of `_find_blank_layout`: walk the catalog keeping the
layout with the strictly smallest placeholder count seen so far
(`if num_ph < min_placeholders`), starting from `min_placeholders = inf` —
the first element always replaces the initial `layouts[-1]`. -/
def minScanAux (l : List Layout) (best : Layout) (m : Option Nat) : Layout :=
  match l, m with
  | [], _ => best
  | L :: rest, none => minScanAux rest L (some L.ph)
  | L :: rest, some mv =>
      if L.ph < mv then minScanAux rest L (some L.ph) else minScanAux rest best (some mv)

/-- Fallback chain of `_find_blank_layout` after the index-6 shortcut:
first zero-placeholder layout in catalog order, else the minimum scan
seeded with `layouts[-1]` (raising — `none` — on an empty catalog). -/
def findBlankFallback (l : List Layout) : Option Layout :=
  match l.find? (fun L => L.ph == 0) with
  | some L => some L
  | none =>
      match l.getLast? with
      | none => none
      | some lastL => some (minScanAux l lastL none)

/-- `_find_blank_layout`: layout 6 if it exists and has zero placeholders,
else the fallback chain.  `none` models the `IndexError` on an empty
catalog (a fatal precondition violation aborting generation). -/
def findBlankLayout (l : List Layout) : Option Layout :=
  match l.get? 6 with
  | some L6 => if L6.ph = 0 then some L6 else findBlankFallback l
  | none => findBlankFallback l

/-! ## Shared composer pieces -/

/-- Background insertion shared by all three composers (`add_picture` at
(0,0) sized 10in × 5.625in, then `spTree.insert(2, ...)` moving it to the
back of the shape tree): when a path is supplied and resolves, the picture
becomes the first shape; otherwise the tree is untouched. -/
def addBackground (ex : String → Bool) (bgPath : Option String) (s : List Shape) :
    List Shape :=
  match bgPath with
  | some p => if ex p then Shape.picture 0 0 (some 10000) (some 5625) :: s else s
  | none => s

/-- The top title textbox used by the agenda and content composers:
`add_textbox(Inches(0.5), Inches(0.2), Inches(9), Inches(0.8))`, one
paragraph at 28pt. -/
def topTitleBox (title : String) : Shape :=
  Shape.textbox 500 200 9000 800
    [{ text := title, size := 28, bold := false, level := 0,
       spaceBefore := none, spaceAfter := none }]

/-! ## Title composer (`_add_title_slide`, lines 203-248) -/

/-- `_add_title_slide`: optional background, a centred 44pt bold title
textbox at (1in, 2in), and — when `content[0]` exists and is non-empty — a
22pt subtitle textbox at (1in, 3.5in). -/
def addTitleSlide (ex : String → Bool) (d : SlideData) (bgPath : Option String)
    (s : List Shape) : List Shape :=
  let s1 := addBackground ex bgPath s
  let title := d.title.getD ""
  let subtitle := match d.content with | [] => "" | c :: _ => c
  let s2 := s1 ++ [Shape.textbox 1000 2000 8000 1500
    [{ text := title, size := 44, bold := true, level := 0,
       spaceBefore := none, spaceAfter := none }]]
  if subtitle = "" then s2
  else s2 ++ [Shape.textbox 1000 3500 8000 1000
    [{ text := subtitle, size := 22, bold := false, level := 0,
       spaceBefore := none, spaceAfter := none }]]

/-! ## Agenda composer (`_add_agenda_slide`, lines 295-364) -/

/-- Agenda item text built from a structured bullet:
`f"{b.get('emoji', '')} {b.get('point', '') or b.get('description', '')}"`
(Python `or` picks `description` when `point` is empty). -/
def agendaItemText (b : Bullet) : String :=
  b.emoji ++ " " ++ (if b.point = "" then b.description else b.point)

/-- The item list of the agenda composer: from structured bullets when the
bullet list is non-empty, else the flat content list. -/
def agendaItems (d : SlideData) : List String :=
  match d.bullets.getD [] with
  | [] => d.content
  | bs => bs.map agendaItemText

/-- One agenda column paragraph: 24pt, `space_after = Pt(16)`. -/
def agendaPara (item : String) : Para :=
  { text := item, size := 24, bold := false, level := 0,
    spaceBefore := none, spaceAfter := some 16 }

/-- `_add_agenda_slide`: optional background, the top title textbox
(default title when the key is absent), then — only when the item list is
non-empty — two column textboxes splitting the items at
`mid_point = (len(items) + 1) // 2`. -/
def addAgendaSlide (ex : String → Bool) (d : SlideData) (bgPath : Option String)
    (s : List Shape) : List Shape :=
  let s1 := addBackground ex bgPath s
  let title := d.title.getD "Nội dung bài học"
  let s2 := s1 ++ [topTitleBox title]
  let items := agendaItems d
  if items = [] then s2
  else
    let mid := (items.length + 1) / 2
    s2 ++ [Shape.textbox 500 1200 4500 4000 ((items.take mid).map agendaPara),
           Shape.textbox 5000 1200 4500 4000 ((items.drop mid).map agendaPara)]

/-! ## Content composer, always-textbox variant
(`_add_content_slide_v2`, lines 366-471) -/

/-- Paragraphs emitted for one structured bullet by `_add_content_slide_v2`
(and identically by the bullet branch of `_add_content_slide`): non-empty
`point` gives a bold 22pt lead paragraph plus, when `description` is
non-empty, an indented 18pt description paragraph; empty `point` gives a
single 20pt description paragraph. -/
def bulletParasV2 (b : Bullet) : List Para :=
  if b.point = "" then
    [{ text := b.description, size := 20, bold := false, level := 0,
       spaceBefore := none, spaceAfter := some 8 }]
  else
    { text := if b.emoji = "" then b.point else b.emoji ++ " " ++ b.point,
      size := 22, bold := true, level := 0,
      spaceBefore := none, spaceAfter := some 2 } ::
    (if b.description = "" then []
     else [{ text := b.description, size := 18, bold := false, level := 1,
             spaceBefore := some 0, spaceAfter := some 8 }])

/-- Flat-content fallback of `_add_content_slide_v2` (lines 456-464): one
18pt paragraph per item, prefixing the bullet glyph unless the item
already starts with one; no truncation. -/
def contentFlatV2 (content : List String) : List Para :=
  content.map (fun item =>
    { text := if item.startsWith "•" then item else "• " ++ item,
      size := 18, bold := false, level := 0,
      spaceBefore := none, spaceAfter := some 6 })

/-- The content paragraphs of `_add_content_slide_v2`: structured bullets
when present, else the flat fallback (which is empty on empty content). -/
def contentParasV2 (d : SlideData) : List Para :=
  match d.bullets.getD [] with
  | [] => contentFlatV2 d.content
  | bs => bs.flatMap bulletParasV2

/-- `_add_content_slide_v2`: optional background, top title textbox, a
content textbox whose width depends on image presence, and the picture
itself (at (5.5in, 1.5in), fixed 3in height) when the image path resolves. -/
def addContentSlideV2 (ex : String → Bool) (d : SlideData) (bgPath : Option String)
    (s : List Shape) : List Shape :=
  let s1 := addBackground ex bgPath s
  let title := d.title.getD ""
  let s2 := s1 ++ [topTitleBox title]
  let hasImage := match d.imagePath with
    | some p => ex p
    | none => false
  let box := if hasImage then Shape.textbox 500 1200 4500 4000 (contentParasV2 d)
             else Shape.textbox 500 1200 9000 4000 (contentParasV2 d)
  let s3 := s2 ++ [box]
  if hasImage then s3 ++ [Shape.picture 5500 1500 none (some 3000)] else s3

/-! ## Content composer, legacy placeholder-seeking variant
(`_add_content_slide`, lines 506-633), flat-content branch only -/

/-- Font size of the legacy flat-content branch, a step function of the
(post-truncation) item count: `16` for up to three items, `14` for four or
five, `12` beyond. -/
def legacyStepFont (n : Nat) : Nat :=
  if n ≤ 3 then 16 else if n ≤ 5 then 14 else 12

/-- Flat-content fallback of `_add_content_slide` (lines 605-629): truncate
to `MAX_BULLETS = 6` items, pick the step-function font size from the
truncated length, and emit one paragraph per item with the glyph prefixed
unconditionally (`p.text = f"• {item}"`). -/
def contentFlatLegacy (content : List String) : List Para :=
  let c := content.take 6
  c.map (fun item =>
    { text := "• " ++ item, size := legacyStepFont c.length, bold := false,
      level := 0, spaceBefore := none, spaceAfter := some 6 })

/-! ## Media Attacher (`_add_audio_with_autoplay`, lines 658-693)

`os.path.splitext(audio_path)[1].lower()` is a library boundary: the
functions below take the already-extracted, lowercase-able extension as
input. -/

/-- The fixed supported-format set of `_add_audio_with_autoplay`. -/
def supportedAudioExts : List String := [".mp3", ".wav", ".m4a", ".wma"]

/-- `_add_audio_with_autoplay`, shape-insertion part: lowercase the
extension; if unsupported, record a diagnostic and leave the slide alone;
otherwise append one media shape at `Inches(-0.6), Inches(-0.6)` sized
0.4in × 0.4in. -/
def addAudioShape (ext : String) (s : List Shape) : List Shape :=
  if supportedAudioExts.contains (strToLower ext) then
    s ++ [Shape.media (-600) (-600) 400 400]
  else s

/-- The media shapes of a shape list. -/
def mediaShapes (s : List Shape) : List Shape :=
  s.filter (fun sh => match sh with | Shape.media _ _ _ _ => true | _ => false)

/-! ## Timing Graph Injector (`_set_audio_autoplay`, lines 705-783)

The slide's XML element is modelled as its list of child elements; a child
is a generic XML node. -/

/-- A generic XML element: tag, attribute list, children. -/
inductive XElem where
  | node (tag : String) (attrs : List (String × String)) (children : List XElem)
  deriving Repr

/-- The tag of an element. -/
def XElem.tag : XElem → String
  | .node t _ _ => t

/-- Whether a child element is a `p:timing` subtree. -/
def isTiming (e : XElem) : Bool :=
  e.tag == "p:timing"

/-- The timing subtree built by `_set_audio_autoplay` for a media shape
identifier: root timing container → sequence → nested hold groups with
zero-delay start conditions → one `playFrom(0.0)` command targeting the
shape id (the `timing_xml` literal, lines 716-768). -/
def timingXml (shapeId : Nat) : XElem :=
  .node "p:timing" []
    [.node "p:tnLst" []
      [.node "p:par" []
        [.node "p:cTn" [("id", "1"), ("dur", "indefinite"), ("restart", "never"),
                        ("nodeType", "tmRoot")]
          [.node "p:childTnLst" []
            [.node "p:seq" [("concurrent", "1"), ("nextAc", "seek")]
              [.node "p:cTn" [("id", "2"), ("dur", "indefinite"), ("nodeType", "mainSeq")]
                [.node "p:childTnLst" []
                  [.node "p:par" []
                    [.node "p:cTn" [("id", "3"), ("fill", "hold")]
                      [.node "p:stCondLst" [] [.node "p:cond" [("delay", "0")] []],
                       .node "p:childTnLst" []
                        [.node "p:par" []
                          [.node "p:cTn" [("id", "4"), ("fill", "hold")]
                            [.node "p:stCondLst" [] [.node "p:cond" [("delay", "0")] []],
                             .node "p:childTnLst" []
                              [.node "p:par" []
                                [.node "p:cTn" [("id", "5"), ("presetID", "1"),
                                                ("presetClass", "mediacall"),
                                                ("presetSubtype", "0"), ("fill", "hold"),
                                                ("nodeType", "afterEffect")]
                                  [.node "p:stCondLst" [] [.node "p:cond" [("delay", "0")] []],
                                   .node "p:childTnLst" []
                                    [.node "p:cmd" [("type", "call"), ("cmd", "playFrom(0.0)")]
                                      [.node "p:cBhvr" []
                                        [.node "p:cTn" [("id", "6"), ("dur", "1"), ("fill", "hold")] [],
                                         .node "p:tgtEl" []
                                          [.node "p:spTgt" [("spid", toString shapeId)] []]]]]]]]]]]]]]]]]]]]]

/-- Collect, to a bounded depth, the values of attribute `attr` on every
descendant whose tag is `tag`, in document order.  The fuel bound 32
exceeds the depth of every tree in this development (the timing literal is
20 levels deep). -/
def collectAttrFuel (tag attr : String) : Nat → XElem → List String
  | 0, _ => []
  | fuel + 1, .node t as cs =>
      (if t == tag then
        match as.lookup attr with
        | some v => [v]
        | none => []
       else []) ++ (cs.map (collectAttrFuel tag attr fuel)).flatten

/-- Attribute collection at the fixed fuel bound. -/
def collectAttr (tag attr : String) (e : XElem) : List String :=
  collectAttrFuel tag attr 32 e

/-- `slide_elem.find(qn('p:timing'))` followed by `remove`: drop the first
`p:timing` child if there is one, leave the list unchanged otherwise. -/
def removeFirstTiming : List XElem → List XElem
  | [] => []
  | e :: rest => if isTiming e then rest else e :: removeFirstTiming rest

/-- `_set_audio_autoplay` on the slide element's child list: remove the
existing timing subtree (when present), then append the freshly built one
targeting the given shape id. -/
def setAudioAutoplay (shapeId : Nat) (children : List XElem) : List XElem :=
  removeFirstTiming children ++ [timingXml shapeId]

/-- The timing subtrees among a slide element's children. -/
def timingChildren (children : List XElem) : List XElem :=
  children.filter isTiming

/-! ## Per-slide dispatch and whole-document generation
(`generate_presentation`, lines 50-128) -/

/-- Which composer runs for a record. -/
inductive ComposerKind where
  | title
  | agenda
  | content
  deriving Repr, DecidableEq

/-- The dispatch of `generate_presentation` (lines 95-112):
`slide_type = slide_data.get('slideType', 'content')`,
`slide_index = slide_data.get('slideIndex', i)`, then title when the type
tag is `'title'` or the index is 0, agenda when the tag is `'agenda'` or
`'objectives'` or the index is 1, content otherwise. -/
def selectComposer (slideType : Option String) (slideIndex : Option Int) (i : Nat) :
    ComposerKind :=
  let st := slideType.getD "content"
  let si := slideIndex.getD (i : Int)
  if st = "title" ∨ si = 0 then .title
  else if st = "agenda" ∨ st = "objectives" ∨ si = 1 then .agenda
  else .content

/-- Stand-in for `os.path.splitext(p)[1]` at the library boundary: the
suffix of the path from its last dot (empty when the path has no dot). -/
def audioExtOf (p : String) : String :=
  let rev := p.toList.reverse
  if rev.contains '.' then
    String.mk ('.' :: (rev.takeWhile (fun c => c ≠ '.')).reverse)
  else ""

/-- One loop iteration of `generate_presentation` for record `d` at
position `i`: a fresh slide from the (sanitized blank) layout, the
selected composer, then the audio attachment when the audio path is
present and resolves.  (Speaker notes and the timing injection do not
touch the shape tree.) -/
def composeSlide (ex : String → Bool) (titleBg contentBg : Option String)
    (i : Nat) (d : SlideData) : List Shape :=
  let base :=
    match selectComposer d.slideType d.slideIndex i with
    | .title => addTitleSlide ex d titleBg []
    | .agenda => addAgendaSlide ex d contentBg []
    | .content => addContentSlideV2 ex d contentBg []
  match d.audioPath with
  | some p => if ex p then addAudioShape (audioExtOf p) base else base
  | none => base

/-- The slide-clearing loop of `generate_presentation` (lines 86-89):
`while len(prs.slides) > 0: del prs.slides._sldIdLst[0]` — drop slides
from the front until none remain. -/
def clearSlides : List (List Shape) → List (List Shape)
  | [] => []
  | _ :: rest => clearSlides rest

/-- `generate_presentation` at the slide-list level: start from the loaded
template's slide list (empty for the blank sentinel), clear it, then append
one composed slide per input record in submission order. -/
def generatePresentation (ex : String → Bool) (titleBg contentBg : Option String)
    (templateSlides : List (List Shape)) (records : List SlideData) :
    List (List Shape) :=
  records.enum.foldl
    (fun acc p => acc ++ [composeSlide ex titleBg contentBg p.1 p.2])
    (clearSlides templateSlides)

/-! # Helper lemmas -/

/-- The slide-clearing loop empties any slide list. -/
theorem clearSlides_eq_nil (l : List (List Shape)) : clearSlides l = [] := by
  induction l with
  | nil => rfl
  | cons _ rest ih => simpa [clearSlides] using ih

/-- Folding slide-appends equals the initial list followed by the mapped
records. -/
theorem foldl_append_eq {α β : Type} (f : α → β) :
    ∀ (l : List α) (init : List β),
      l.foldl (fun acc p => acc ++ [f p]) init = init ++ l.map f := by
  intro l
  induction l with
  | nil => intro init; simp
  | cons a rest ih =>
      intro init
      simp only [List.foldl_cons, List.map_cons, ih]
      simp

/-- `generatePresentation` unfolds to the map over the enumerated records:
the template's slides are gone. -/
theorem generatePresentation_eq_map (ex : String → Bool) (tbg cbg : Option String)
    (t : List (List Shape)) (rs : List SlideData) :
    generatePresentation ex tbg cbg t rs =
      rs.enum.map (fun p => composeSlide ex tbg cbg p.1 p.2) := by
  unfold generatePresentation
  rw [clearSlides_eq_nil, foldl_append_eq]
  simp

/-! # Claim theorems -/

/-- C1: every generation call yields exactly one slide per input record, in
submission order — template slides are cleared first, so the count equals
the record count and the output is independent of the loaded template's
slide list. -/
theorem generation_one_slide_per_record (ex : String → Bool)
    (tbg cbg : Option String) (t : List (List Shape)) (rs : List SlideData) :
    (generatePresentation ex tbg cbg t rs).length = rs.length ∧
    (∀ i, (generatePresentation ex tbg cbg t rs).get? i =
      (rs.get? i).map (composeSlide ex tbg cbg i)) ∧
    generatePresentation ex tbg cbg t rs = generatePresentation ex tbg cbg [] rs := by
  refine ⟨?_, ?_, ?_⟩
  · rw [generatePresentation_eq_map]; simp
  · intro i
    rw [generatePresentation_eq_map]
    rw [List.get?_eq_getElem?, List.getElem?_map, List.getElem?_enum]
    cases h : rs.get? i <;> rw [List.get?_eq_getElem?] at h <;> rw [h]
    · rfl
    · rfl
  · rw [generatePresentation_eq_map, generatePresentation_eq_map]

/-- C10: composer selection is by position as well as type tag — title when
the tag is `'title'` or the effective index (`slideIndex`, defaulting to
the list position) is 0; agenda when the tag is `'agenda'`/`'objectives'`
or the effective index is 1; content otherwise.  In particular a record
tagged `'content'` at index 0 is composed as a title slide. -/
theorem composer_dispatch_by_position (st : Option String) (si : Option Int) (i : Nat) :
    (selectComposer st si i = .title ↔
      (st.getD "content" = "title" ∨ si.getD (i : Int) = 0)) ∧
    (selectComposer st si i = .agenda ↔
      (¬(st.getD "content" = "title" ∨ si.getD (i : Int) = 0) ∧
       (st.getD "content" = "agenda" ∨ st.getD "content" = "objectives" ∨
        si.getD (i : Int) = 1))) ∧
    selectComposer st none i = selectComposer st (some (i : Int)) i ∧
    selectComposer (some "content") (some 0) i = .title ∧
    selectComposer (some "content") none 0 = .title := by
  simp only [selectComposer]
  refine ⟨?_, ?_, by simp, by simp, by simp⟩
  · split
    · simp_all
    · split <;> simp_all
  · split
    · simp_all
    · split <;> simp_all

/-- C5: a structured bullet with empty `point` emits exactly the single
20pt description paragraph; with non-empty `point` it emits the bold 22pt
lead paragraph (emoji-prefixed unless the emoji is empty) followed by the
indented 18pt description paragraph exactly when `description` is
non-empty. -/
theorem bullet_paragraph_emission (b : Bullet) :
    (b.point = "" → bulletParasV2 b =
      [{ text := b.description, size := 20, bold := false, level := 0,
         spaceBefore := none, spaceAfter := some 8 }]) ∧
    (b.point ≠ "" → b.description = "" → bulletParasV2 b =
      [{ text := if b.emoji = "" then b.point else b.emoji ++ " " ++ b.point,
         size := 22, bold := true, level := 0,
         spaceBefore := none, spaceAfter := some 2 }]) ∧
    (b.point ≠ "" → b.description ≠ "" → bulletParasV2 b =
      [{ text := if b.emoji = "" then b.point else b.emoji ++ " " ++ b.point,
         size := 22, bold := true, level := 0,
         spaceBefore := none, spaceAfter := some 2 },
       { text := b.description, size := 18, bold := false, level := 1,
         spaceBefore := some 0, spaceAfter := some 8 }]) := by
  refine ⟨fun hp => ?_, fun hp hd => ?_, fun hp hd => ?_⟩
  · simp [bulletParasV2, hp]
  · simp [bulletParasV2, hp, hd]
  · simp [bulletParasV2, hp, hd]

/-- C5 witness: the bullet `{emoji: "", point: "A", description: "d1"}`
emits the bold lead paragraph and the indented description paragraph. -/
theorem bullet_paragraph_emission_witness :
    bulletParasV2 ⟨"", "A", "d1"⟩ =
      [{ text := "A", size := 22, bold := true, level := 0,
         spaceBefore := none, spaceAfter := some 2 },
       { text := "d1", size := 18, bold := false, level := 1,
         spaceBefore := some 0, spaceAfter := some 8 }] := by
  have h := (bullet_paragraph_emission ⟨"", "A", "d1"⟩).2.2 (by decide) (by decide)
  simpa using h

/-- C4: a non-empty agenda item list of length n is split with
`mid_point = (n + 1) // 2`: the left column textbox holds `ceil(n/2)` item
paragraphs, the two columns together hold all n, and the left exceeds the
right by 0 for even n and by 1 for odd n. -/
theorem agenda_two_column_split (ex : String → Bool) (d : SlideData)
    (bgPath : Option String) (s : List Shape) (h : agendaItems d ≠ []) :
    ∃ l r rest, addAgendaSlide ex d bgPath s = rest ++
      [Shape.textbox 500 1200 4500 4000 l, Shape.textbox 5000 1200 4500 4000 r] ∧
      l.length = ((agendaItems d).length + 1) / 2 ∧
      l.length + r.length = (agendaItems d).length ∧
      ((agendaItems d).length % 2 = 0 → l.length = r.length) ∧
      ((agendaItems d).length % 2 = 1 → l.length = r.length + 1) := by
  have hn : 1 ≤ (agendaItems d).length := by
    cases hi : agendaItems d with
    | nil => exact absurd hi h
    | cons a t => simp [hi]
  refine ⟨((agendaItems d).take (((agendaItems d).length + 1) / 2)).map agendaPara,
          ((agendaItems d).drop (((agendaItems d).length + 1) / 2)).map agendaPara,
          addBackground ex bgPath s ++ [topTitleBox (d.title.getD "Nội dung bài học")],
          ?_, ?_, ?_, ?_, ?_⟩
  · simp only [addAgendaSlide, if_neg h]
  · simp only [List.length_map, List.length_take]
    omega
  · simp only [List.length_map, List.length_take, List.length_drop]
    omega
  · intro hev
    simp only [List.length_map, List.length_take, List.length_drop]
    omega
  · intro hodd
    simp only [List.length_map, List.length_take, List.length_drop]
    omega

/-- C4 witness: three agenda items from the flat content list split 2 | 1. -/
theorem agenda_two_column_split_witness :
    ∃ l r rest,
      addAgendaSlide (fun _ => false)
        ⟨none, none, none, ["a", "b", "c"], none, none, none, none⟩ none [] = rest ++
        [Shape.textbox 500 1200 4500 4000 l, Shape.textbox 5000 1200 4500 4000 r] ∧
      l.length = ((agendaItems ⟨none, none, none, ["a", "b", "c"], none, none, none, none⟩).length + 1) / 2 ∧
      l.length + r.length = (agendaItems ⟨none, none, none, ["a", "b", "c"], none, none, none, none⟩).length ∧
      ((agendaItems ⟨none, none, none, ["a", "b", "c"], none, none, none, none⟩).length % 2 = 0 → l.length = r.length) ∧
      ((agendaItems ⟨none, none, none, ["a", "b", "c"], none, none, none, none⟩).length % 2 = 1 → l.length = r.length + 1) :=
  agenda_two_column_split (fun _ => false)
    ⟨none, none, none, ["a", "b", "c"], none, none, none, none⟩ none [] (by decide)

/-- C7: the attacher lowercases the extension and checks it against the
fixed supported set; unsupported extensions add no media shape, supported
ones append exactly one media shape whose left and top are both strictly
negative. -/
theorem audio_attach_offcanvas (ext : String) (s : List Shape) :
    (supportedAudioExts.contains (strToLower ext) = false → addAudioShape ext s = s) ∧
    (supportedAudioExts.contains (strToLower ext) = true →
      ∃ left top width height,
        addAudioShape ext s = s ++ [Shape.media left top width height] ∧
        left < 0 ∧ top < 0) := by
  constructor
  · intro hno
    have h2 : strToLower ext ∉ supportedAudioExts := by simpa using hno
    simp [addAudioShape, h2]
  · intro hyes
    have h2 : strToLower ext ∈ supportedAudioExts := by simpa using hyes
    exact ⟨-600, -600, 400, 400, by simp [addAudioShape, h2], by norm_num, by norm_num⟩

/-- C7 witness: extension `.MP3` (supported after lowercasing) on an empty
slide appends one off-canvas media shape; extension `.ogg` adds nothing. -/
theorem audio_attach_offcanvas_witness :
    (∃ left top width height,
      addAudioShape ".MP3" [] = [] ++ [Shape.media left top width height] ∧
      left < 0 ∧ top < 0) ∧
    addAudioShape ".ogg" [] = [] :=
  ⟨(audio_attach_offcanvas ".MP3" []).2 (by decide),
   (audio_attach_offcanvas ".ogg" []).1 (by decide)⟩

/-- C8: after the sanitizer runs, no surviving shape that was inspectable
carries the structural placeholder flag, the placeholder-format flag, or
editor-prompt text; a shape whose inspection faulted is skipped (it
survives) and the remaining shapes are still sanitized (any unflagged
shape also survives, in order). -/
theorem sanitizer_removes_placeholders (shapes : List ShapeInsp) :
    (∀ isPh phFmt text, ShapeInsp.ok isPh phFmt text ∈ clearPlaceholders shapes →
      isPh = false ∧ phFmt = false ∧ promptText text = false) ∧
    (∀ sh ∈ shapes, sh = ShapeInsp.fault → sh ∈ clearPlaceholders shapes) ∧
    (∀ sh ∈ shapes, shouldRemove sh = false → sh ∈ clearPlaceholders shapes) := by
  refine ⟨?_, ?_, ?_⟩
  · intro isPh phFmt text hmem
    have h := List.of_mem_filter hmem
    simp only [shouldRemove, Bool.not_eq_true'] at h
    simp only [Bool.or_eq_false_iff] at h
    exact ⟨h.1.1, h.1.2, h.2⟩
  · intro sh hsh hf
    subst hf
    exact List.mem_filter.mpr ⟨hsh, by simp [shouldRemove]⟩
  · intro sh hsh hkeep
    exact List.mem_filter.mpr ⟨hsh, by simp [hkeep]⟩

/-- C8 witness: on a slide holding a flagged placeholder, a faulting shape
and a clean textbox, the sanitizer keeps exactly the faulting shape and the
clean textbox. -/
theorem sanitizer_removes_placeholders_witness :
    (ShapeInsp.fault ∈ clearPlaceholders
      [ShapeInsp.ok true false none, ShapeInsp.fault,
       ShapeInsp.ok false false (some "hello")]) ∧
    (ShapeInsp.ok false false (some "hello") ∈ clearPlaceholders
      [ShapeInsp.ok true false none, ShapeInsp.fault,
       ShapeInsp.ok false false (some "hello")]) :=
  ⟨(sanitizer_removes_placeholders _).2.1 ShapeInsp.fault (by decide) rfl,
   (sanitizer_removes_placeholders _).2.2 (ShapeInsp.ok false false (some "hello"))
     (by decide) (by decide)⟩

/-- C9 counterexample: on a record whose bullet list and content list are
both empty, the agenda composer does not leave the shape tree unchanged —
starting from an empty tree it still adds the title textbox (with the
default title) before returning. -/
theorem agenda_empty_not_noop :
    addAgendaSlide (fun _ => false)
      ⟨none, none, none, [], none, none, none, none⟩ none [] =
      [topTitleBox "Nội dung bài học"] ∧
    ([topTitleBox "Nội dung bài học"] : List Shape) ≠ [] := by
  constructor
  · rfl
  · decide

/-- C9 amended: for a record whose bullet list and content list are both
empty, the agenda composer adds no column textboxes — it returns right
after the background picture (when a valid path was supplied) and the
title textbox, leaving the rest of the shape tree as it was. -/
theorem agenda_empty_amended (ex : String → Bool) (d : SlideData)
    (bgPath : Option String) (s : List Shape)
    (hb : d.bullets.getD [] = []) (hc : d.content = []) :
    addAgendaSlide ex d bgPath s =
      addBackground ex bgPath s ++ [topTitleBox (d.title.getD "Nội dung bài học")] := by
  have hitems : agendaItems d = [] := by
    simp [agendaItems, hb, hc]
  simp only [addAgendaSlide, hitems]
  simp

/-- C9 amended witness: the empty record on an empty tree yields exactly
the default-titled textbox. -/
theorem agenda_empty_amended_witness :
    addAgendaSlide (fun _ => false)
      ⟨none, some 1, some "Agenda", [], some [], none, none, none⟩ none [] =
      addBackground (fun _ => false) none [] ++ [topTitleBox "Agenda"] :=
  agenda_empty_amended (fun _ => false)
    ⟨none, some 1, some "Agenda", [], some [], none, none, none⟩ none [] rfl rfl

/-- C3 counterexample: the legacy flat fallback re-adds the bullet glyph to
an item that already starts with one, and the always-textbox flat fallback
does not truncate to any six-item cap — seven items give seven paragraphs. -/
theorem content_fallback_counterexample :
    (contentFlatLegacy ["• a"]).map Para.text ≠ ["• a"] ∧
    (contentFlatV2 ["a", "b", "c", "d", "e", "f", "g"]).length ≠ min 7 6 := by
  constructor <;> decide

/-- C3 amended: the two flat-content fallbacks divide the claimed
behaviour between them.  The always-textbox variant
(`_add_content_slide_v2`) emits one paragraph per item with the glyph-skip
rule at a fixed 18pt size and no truncation; the legacy variant
(`_add_content_slide`) truncates to `min(len(content), 6)` items, applies
the glyph unconditionally, and sets every paragraph to the three-band
monotonically non-increasing step font of the truncated count. -/
theorem content_fallback_amended (content : List String) :
    ((contentFlatV2 content).length = content.length ∧
     (contentFlatV2 content).map Para.text =
       content.map (fun item => if item.startsWith "•" then item else "• " ++ item) ∧
     (∀ p ∈ contentFlatV2 content, p.size = 18)) ∧
    ((contentFlatLegacy content).length = min content.length 6 ∧
     (contentFlatLegacy content).map Para.text =
       (content.take 6).map (fun item => "• " ++ item) ∧
     (∀ p ∈ contentFlatLegacy content, p.size = legacyStepFont (min content.length 6)) ∧
     (∀ m n : Nat, m ≤ n → legacyStepFont n ≤ legacyStepFont m)) := by
  refine ⟨⟨by simp [contentFlatV2], by simp [contentFlatV2], ?_⟩,
          ⟨?_, by simp only [contentFlatLegacy, List.map_map]; rfl, ?_, ?_⟩⟩
  · intro p hp
    simp only [contentFlatV2, List.mem_map] at hp
    obtain ⟨item, _, hmk⟩ := hp
    rw [← hmk]
  · simp only [contentFlatLegacy, List.length_map, List.length_take]
    omega
  · intro p hp
    simp only [contentFlatLegacy, List.mem_map] at hp
    obtain ⟨item, _, hmk⟩ := hp
    rw [← hmk]
    simp only [List.length_take]
    congr 1
    omega
  · intro m n hmn
    simp only [legacyStepFont]
    split_ifs <;> omega

/-- C3 amended witness: seven items give seven untruncated 18pt paragraphs
in the always-textbox variant, six truncated paragraphs in the legacy one,
and the step font at six items is no larger than at two. -/
theorem content_fallback_amended_witness :
    (contentFlatV2 ["a", "b", "c", "d", "e", "f", "g"]).length = 7 ∧
    (contentFlatLegacy ["a", "b", "c", "d", "e", "f", "g"]).length = min 7 6 ∧
    legacyStepFont 6 ≤ legacyStepFont 2 :=
  ⟨(content_fallback_amended ["a", "b", "c", "d", "e", "f", "g"]).1.1,
   (content_fallback_amended ["a", "b", "c", "d", "e", "f", "g"]).2.1,
   (content_fallback_amended ["a", "b", "c", "d", "e", "f", "g"]).2.2.2.2 2 6 (by omega)⟩

/-- Timing filtering distributes over child-list concatenation. -/
theorem timingChildren_append (a b : List XElem) :
    timingChildren (a ++ b) = timingChildren a ++ timingChildren b := by
  simp [timingChildren, List.filter_append]

/-- Removing the first timing child from a list with at most one timing
child leaves none. -/
theorem removeFirstTiming_of_le_one (children : List XElem)
    (h : (timingChildren children).length ≤ 1) :
    timingChildren (removeFirstTiming children) = [] := by
  induction children with
  | nil => rfl
  | cons e rest ih =>
      cases he : isTiming e with
      | true =>
          have hr : timingChildren rest = [] := by
            have hc : timingChildren (e :: rest) = e :: timingChildren rest := by
              simp [timingChildren, List.filter_cons, he]
            rw [hc] at h
            simp only [List.length_cons] at h
            have : (timingChildren rest).length = 0 := by omega
            exact List.length_eq_zero.mp this
          simpa [removeFirstTiming, he] using hr
      | false =>
          have hc : timingChildren (e :: rest) = timingChildren rest := by
            simp [timingChildren, List.filter_cons, he]
          rw [hc] at h
          have hrec := ih h
          have : timingChildren (e :: removeFirstTiming rest) =
              timingChildren (removeFirstTiming rest) := by
            simp [timingChildren, List.filter_cons, he]
          simpa [removeFirstTiming, he, this] using hrec

/-- When the first block of a concatenation holds no timing child, the
first-timing removal passes over it. -/
theorem removeFirstTiming_append_of_none (a b : List XElem)
    (h : timingChildren a = []) :
    removeFirstTiming (a ++ b) = a ++ removeFirstTiming b := by
  induction a with
  | nil => rfl
  | cons e rest ih =>
      have hsplit : isTiming e = false ∧ timingChildren rest = [] := by
        cases he : isTiming e with
        | true =>
            exfalso
            have : timingChildren (e :: rest) = e :: timingChildren rest := by
              simp [timingChildren, List.filter_cons, he]
            rw [this] at h
            exact List.cons_ne_nil _ _ h
        | false =>
            refine ⟨rfl, ?_⟩
            have : timingChildren (e :: rest) = timingChildren rest := by
              simp [timingChildren, List.filter_cons, he]
            rwa [this] at h
      simp [removeFirstTiming, hsplit.1, ih hsplit.2]

/-- C2: on a slide element carrying at most one timing subtree (any
schema-valid slide), the injector leaves exactly one timing subtree — the
freshly built one — re-running it replaces rather than accumulates
(last-write-wins, hence idempotence), and the installed subtree carries a
single `playFrom(0.0)` command whose target identifier is the media
shape's identifier. -/
theorem timing_injector_last_write_wins (id id2 : Nat) (children : List XElem)
    (h : (timingChildren children).length ≤ 1) :
    timingChildren (setAudioAutoplay id children) = [timingXml id] ∧
    setAudioAutoplay id2 (setAudioAutoplay id children) = setAudioAutoplay id2 children ∧
    collectAttr "p:cmd" "cmd" (timingXml id) = ["playFrom(0.0)"] ∧
    collectAttr "p:spTgt" "spid" (timingXml id) = [toString id] := by
  have hrem := removeFirstTiming_of_le_one children h
  refine ⟨?_, ?_, ?_, ?_⟩
  · unfold setAudioAutoplay
    rw [timingChildren_append, hrem]
    rfl
  · unfold setAudioAutoplay
    rw [removeFirstTiming_append_of_none _ _ hrem]
    have h0 : removeFirstTiming [timingXml id] = [] := rfl
    rw [h0, List.append_nil]
  · simp [collectAttr, collectAttrFuel, timingXml, List.lookup]
  · simp [collectAttr, collectAttrFuel, timingXml, List.lookup]

/-- C2 witness: re-injecting over a slide that already carries a timing
subtree (targeting shape 3) leaves exactly the new subtree, and a third run
with target 7 equals injecting 7 directly. -/
theorem timing_injector_last_write_wins_witness :
    timingChildren (setAudioAutoplay 5 [timingXml 3]) = [timingXml 5] ∧
    setAudioAutoplay 7 (setAudioAutoplay 5 [timingXml 3]) = setAudioAutoplay 7 [timingXml 3] ∧
    collectAttr "p:cmd" "cmd" (timingXml 5) = ["playFrom(0.0)"] ∧
    collectAttr "p:spTgt" "spid" (timingXml 5) = [toString 5] :=
  timing_injector_last_write_wins 5 7 [timingXml 3] (by decide)

/-- Characterization of the minimum scan with a finite current minimum:
either nothing in the remaining catalog beats it (the current best
survives), or the result is the first element of the remainder attaining
its strict minimum. -/
theorem minScanAux_char (rest : List Layout) :
    ∀ (best : Layout) (mv : Nat), best.ph = mv →
      (minScanAux rest best (some mv) = best ∧ ∀ L ∈ rest, mv ≤ L.ph) ∨
      (∃ pre r post, rest = pre ++ r :: post ∧
        minScanAux rest best (some mv) = r ∧ r.ph < mv ∧
        (∀ L ∈ pre, r.ph < L.ph) ∧ (∀ L ∈ post, r.ph ≤ L.ph)) := by
  induction rest with
  | nil =>
      intro best mv hb
      left
      exact ⟨rfl, by simp⟩
  | cons L rest ih =>
      intro best mv hb
      by_cases hL : L.ph < mv
      · have hstep : minScanAux (L :: rest) best (some mv) =
            minScanAux rest L (some L.ph) := by
          simp [minScanAux, hL]
        rcases ih L L.ph rfl with ⟨heq, hall⟩ |
          ⟨pre, r, post, hsplit, heq, hlt, hpre, hpost⟩
        · right
          refine ⟨[], L, rest, by simp, by rw [hstep, heq], hL, by simp, hall⟩
        · right
          refine ⟨L :: pre, r, post, by rw [hsplit]; rfl, by rw [hstep, heq],
            lt_trans hlt hL, ?_, hpost⟩
          intro L2 hL2
          rcases List.mem_cons.mp hL2 with h | h
          · rw [h]; exact hlt
          · exact hpre L2 h
      · have hstep : minScanAux (L :: rest) best (some mv) =
            minScanAux rest best (some mv) := by
          simp [minScanAux, hL]
        rcases ih best mv hb with ⟨heq, hall⟩ |
          ⟨pre, r, post, hsplit, heq, hlt, hpre, hpost⟩
        · left
          refine ⟨by rw [hstep, heq], ?_⟩
          intro L2 hL2
          rcases List.mem_cons.mp hL2 with h | h
          · rw [h]; omega
          · exact hall L2 h
        · right
          refine ⟨L :: pre, r, post, by rw [hsplit]; rfl, by rw [hstep, heq], hlt, ?_, hpost⟩
          intro L2 hL2
          rcases List.mem_cons.mp hL2 with h | h
          · rw [h]; omega
          · exact hpre L2 h

/-- The whole minimum scan (seeded with `layouts[-1]` and an infinite
current minimum) returns the first layout attaining the global minimum
placeholder count: everything before it is strictly larger, everything
after it no smaller. -/
theorem minScan_first_argmin (l : List Layout) (hne : l ≠ []) (lastL : Layout) :
    ∃ pre r post, l = pre ++ r :: post ∧ minScanAux l lastL none = r ∧
      (∀ L ∈ pre, r.ph < L.ph) ∧ (∀ L ∈ post, r.ph ≤ L.ph) := by
  cases l with
  | nil => exact absurd rfl hne
  | cons L0 rest =>
      have hstep : minScanAux (L0 :: rest) lastL none =
          minScanAux rest L0 (some L0.ph) := by
        simp [minScanAux]
      rcases minScanAux_char rest L0 L0.ph rfl with ⟨heq, hall⟩ |
        ⟨pre, r, post, hsplit, heq, hlt, hpre, hpost⟩
      · exact ⟨[], L0, rest, by simp, by rw [hstep, heq], by simp, hall⟩
      · refine ⟨L0 :: pre, r, post, by rw [hsplit]; rfl, by rw [hstep, heq], ?_, hpost⟩
        intro L2 hL2
        rcases List.mem_cons.mp hL2 with h | h
        · rw [h]; exact hlt
        · exact hpre L2 h

/-- `find?` for the zero-placeholder scan returns the first
zero-placeholder layout of a decomposed catalog. -/
theorem find_first_zero (pre : List Layout) (L : Layout) (post : List Layout)
    (hz : L.ph = 0) (hpre : ∀ P ∈ pre, P.ph ≠ 0) :
    (pre ++ L :: post).find? (fun x => x.ph == 0) = some L := by
  induction pre with
  | nil => simp [List.find?_cons, hz]
  | cons P pre ih =>
      have hP : (P.ph == 0) = false := by
        simpa using hpre P (List.mem_cons_self _ _)
      simp only [List.cons_append, List.find?_cons, hP]
      exact ih (fun Q hQ => hpre Q (List.mem_cons_of_mem _ hQ))

/-- When the index-6 shortcut does not fire, `_find_blank_layout` is its
fallback chain. -/
theorem findBlankLayout_eq_fallback (l : List Layout)
    (h : ∀ L6, l.get? 6 = some L6 → L6.ph ≠ 0) :
    findBlankLayout l = findBlankFallback l := by
  unfold findBlankLayout
  cases h6 : l.get? 6 with
  | none => rfl
  | some L6 => simp [h L6 h6]

/-- C6: on a non-empty catalog the resolver returns the layout at the
conventional blank index 6 when that index exists and holds zero
placeholders; otherwise the first zero-placeholder layout in catalog
order; otherwise the first layout attaining the global minimum placeholder
count (ties broken by first occurrence).  On an empty catalog the
resolution fails (fatal precondition violation). -/
theorem layout_resolver_spec (l : List Layout) :
    (∀ L6, l.get? 6 = some L6 → L6.ph = 0 → findBlankLayout l = some L6) ∧
    ((∀ L6, l.get? 6 = some L6 → L6.ph ≠ 0) →
      ∀ pre L post, l = pre ++ L :: post → L.ph = 0 → (∀ P ∈ pre, P.ph ≠ 0) →
        findBlankLayout l = some L) ∧
    ((∀ L6, l.get? 6 = some L6 → L6.ph ≠ 0) → (∀ P ∈ l, P.ph ≠ 0) → l ≠ [] →
      ∃ pre r post, l = pre ++ r :: post ∧ findBlankLayout l = some r ∧
        (∀ P ∈ l, r.ph ≤ P.ph) ∧ (∀ P ∈ pre, r.ph < P.ph)) ∧
    (l = [] → findBlankLayout l = none) := by
  refine ⟨?_, ?_, ?_, ?_⟩
  · intro L6 h6 hz
    unfold findBlankLayout
    rw [h6]
    simp [hz]
  · intro hno6 pre L post hsplit hz hpre
    rw [findBlankLayout_eq_fallback l hno6]
    unfold findBlankFallback
    rw [hsplit, find_first_zero pre L post hz hpre]
  · intro hno6 hnozero hne
    rw [findBlankLayout_eq_fallback l hno6]
    unfold findBlankFallback
    have hfind : l.find? (fun x => x.ph == 0) = none := by
      rw [List.find?_eq_none]
      intro x hx
      simpa using hnozero x hx
    rw [hfind]
    cases hlast : l.getLast? with
    | none =>
        exfalso
        exact hne (List.getLast?_eq_none_iff.mp hlast)
    | some lastL =>
        obtain ⟨pre, r, post, hsplit, heq, hpre, hpost⟩ :=
          minScan_first_argmin l hne lastL
        refine ⟨pre, r, post, hsplit, congrArg some heq, ?_, hpre⟩
        intro P hP
        rw [hsplit] at hP
        rcases List.mem_append.mp hP with h | h
        · exact le_of_lt (hpre P h)
        · rcases List.mem_cons.mp h with h2 | h2
          · rw [h2]
          · exact hpost P h2
  · intro hnil
    rw [hnil]
    rfl

/-- C6 witness: a seven-layout catalog whose index-6 layout has zero
placeholders resolves to that layout. -/
theorem layout_resolver_spec_witness :
    findBlankLayout [⟨0, 2⟩, ⟨1, 2⟩, ⟨2, 2⟩, ⟨3, 2⟩, ⟨4, 2⟩, ⟨5, 2⟩, ⟨6, 0⟩] =
      some ⟨6, 0⟩ :=
  (layout_resolver_spec _).1 ⟨6, 0⟩ (by decide) rfl
